import Mathlib

/-!
Verification of the `gregor` calendar library (proleptic Gregorian calendar
arithmetic with time zones).

The definitions below are a shallow embedding of the Rust sources:

* `src/num.rs`               — `positive_rem`, `div_floor`
* `src/lib.rs`               — `NaiveDateTime`, `YearKind`, `leap_days_since_y0`,
                               `days_since_d0`, timestamp conversions
* `src/time_zones.rs`        — `Utc`, `FixedOffsetFromUtc`, `DaylightSaving`,
                               `CentralEurope`, `days_since_unix`
* `build.rs`                 — the generated `Month` tables
  (`days_since_january_1st`, `from_day_of_the_year`, and the month lengths).

Machine integers are modelled as `Int` together with an explicit
two's-complement wrap (`wrapI`) at exactly the operations of the source that
can overflow their `i32`/`i64` type (Rust release builds wrap on overflow;
debug builds panic there, so any input whose result depends on a wrap is a
failure of the corresponding universally quantified claim either way).
Rust `/` and `%` on signed integers are truncating division (`Int.tdiv`)
and the truncating remainder (`Int.tmod`).  A Rust `panic!` is modelled by
`Option`/`none`.
-/

namespace Gregor

/-- Two's-complement wrap of an unbounded integer to `w` bits: the unique
representative of `x` modulo `2 ^ w` lying in `[-2 ^ (w - 1), 2 ^ (w - 1))`.
Models Rust release-mode overflow of `iN` arithmetic and `as iN` casts. -/
def wrapI (w : Nat) (x : Int) : Int :=
  (x + 2 ^ (w - 1)) % 2 ^ w - 2 ^ (w - 1)

/-- Constant from `src/time_zones.rs` / `src/lib.rs`. -/
def SECONDS_PER_MINUTE : Int := 60

/-- Constant from `src/time_zones.rs` / `src/lib.rs`. -/
def SECONDS_PER_HOUR : Int := SECONDS_PER_MINUTE * 60

/-- Constant from `src/time_zones.rs` / `src/lib.rs`. -/
def SECONDS_PER_DAY : Int := SECONDS_PER_HOUR * 24

/-- Constant from `src/time_zones.rs` / `src/lib.rs` (`100 - 4 + 1`). -/
def LEAP_DAYS_PER_400YEARS : Int := 100 - 4 + 1

/-- Constant from `src/time_zones.rs` / `src/lib.rs`. -/
def DAYS_PER_COMMON_YEAR : Int := 365

/-- Constant from `src/time_zones.rs` / `src/lib.rs` (`365 * 400 + 97 = 146097`). -/
def DAYS_PER_400YEARS : Int := DAYS_PER_COMMON_YEAR * 400 + LEAP_DAYS_PER_400YEARS

/-- The `Month` enum generated by `build.rs`. -/
inductive Month
  | January
  | February
  | March
  | April
  | May
  | June
  | July
  | August
  | September
  | October
  | November
  | December
  deriving DecidableEq, Repr

/-- The discriminant of the generated enum (`January = 1`, ..., `December = 12`).
The derived Rust ordering on the enum compares these discriminants. -/
def Month.number : Month → Nat
  | .January => 1
  | .February => 2
  | .March => 3
  | .April => 4
  | .May => 5
  | .June => 6
  | .July => 7
  | .August => 8
  | .September => 9
  | .October => 10
  | .November => 11
  | .December => 12

/-- The `YearKind` enum from `src/lib.rs`. -/
inductive YearKind
  | Common
  | Leap
  deriving DecidableEq, Repr

/-- `impl From<i32> for YearKind` from `src/lib.rs`.  (`from` is a Lean keyword,
hence the name `fromInt`.)  `is_multiple(n, d)` is Rust `n % d == 0`, i.e. the
truncating remainder `Int.tmod`; no overflow is possible since all divisors are
positive. -/
def YearKind.fromInt (year : Int) : YearKind :=
  if year.tmod 4 = 0 ∧ (¬ year.tmod 100 = 0 ∨ year.tmod 400 = 0) then
    YearKind.Leap
  else
    YearKind.Common

/-- `Month::days_since_january_1st` as generated by `build.rs`:
days between January 1st and the first day of the month. -/
def Month.days_since_january_1st (m : Month) (year_kind : YearKind) : Int :=
  match year_kind with
  | .Common =>
    match m with
    | .January => 0
    | .February => 31
    | .March => 59
    | .April => 90
    | .May => 120
    | .June => 151
    | .July => 181
    | .August => 212
    | .September => 243
    | .October => 273
    | .November => 304
    | .December => 334
  | .Leap =>
    match m with
    | .January => 0
    | .February => 31
    | .March => 60
    | .April => 91
    | .May => 121
    | .June => 152
    | .July => 182
    | .August => 213
    | .September => 244
    | .October => 274
    | .November => 305
    | .December => 335

/-- `Month::from_day_of_the_year` as generated by `build.rs`: the inverse table
lookup.  In: 0 for Jan 1st, 364 or 365 for Dec 31.  Out: month and 1-based day
of the month.  The source panics on an out-of-range day; the panic is modelled
by `none`.  The generated `a...b => (month, (day - a + 1) as u8)` arms are
translated range by range; `(day - a + 1)` lies in `[1, 31]` inside each arm,
so the `as u8` cast is exact and `Int.toNat` is faithful. -/
def Month.from_day_of_the_year (day : Int) (year_kind : YearKind) :
    Option (Month × Nat) :=
  match year_kind with
  | .Common =>
    if 0 ≤ day ∧ day ≤ 30 then some (.January, (day - 0 + 1).toNat)
    else if 31 ≤ day ∧ day ≤ 58 then some (.February, (day - 31 + 1).toNat)
    else if 59 ≤ day ∧ day ≤ 89 then some (.March, (day - 59 + 1).toNat)
    else if 90 ≤ day ∧ day ≤ 119 then some (.April, (day - 90 + 1).toNat)
    else if 120 ≤ day ∧ day ≤ 150 then some (.May, (day - 120 + 1).toNat)
    else if 151 ≤ day ∧ day ≤ 180 then some (.June, (day - 151 + 1).toNat)
    else if 181 ≤ day ∧ day ≤ 211 then some (.July, (day - 181 + 1).toNat)
    else if 212 ≤ day ∧ day ≤ 242 then some (.August, (day - 212 + 1).toNat)
    else if 243 ≤ day ∧ day ≤ 272 then some (.September, (day - 243 + 1).toNat)
    else if 273 ≤ day ∧ day ≤ 303 then some (.October, (day - 273 + 1).toNat)
    else if 304 ≤ day ∧ day ≤ 333 then some (.November, (day - 304 + 1).toNat)
    else if 334 ≤ day ∧ day ≤ 364 then some (.December, (day - 334 + 1).toNat)
    else none
  | .Leap =>
    if 0 ≤ day ∧ day ≤ 30 then some (.January, (day - 0 + 1).toNat)
    else if 31 ≤ day ∧ day ≤ 59 then some (.February, (day - 31 + 1).toNat)
    else if 60 ≤ day ∧ day ≤ 90 then some (.March, (day - 60 + 1).toNat)
    else if 91 ≤ day ∧ day ≤ 120 then some (.April, (day - 91 + 1).toNat)
    else if 121 ≤ day ∧ day ≤ 151 then some (.May, (day - 121 + 1).toNat)
    else if 152 ≤ day ∧ day ≤ 181 then some (.June, (day - 152 + 1).toNat)
    else if 182 ≤ day ∧ day ≤ 212 then some (.July, (day - 182 + 1).toNat)
    else if 213 ≤ day ∧ day ≤ 243 then some (.August, (day - 213 + 1).toNat)
    else if 244 ≤ day ∧ day ≤ 273 then some (.September, (day - 244 + 1).toNat)
    else if 274 ≤ day ∧ day ≤ 304 then some (.October, (day - 274 + 1).toNat)
    else if 305 ≤ day ∧ day ≤ 334 then some (.November, (day - 305 + 1).toNat)
    else if 335 ≤ day ∧ day ≤ 365 then some (.December, (day - 335 + 1).toNat)
    else none

/-- The length in days of a month.  The data is the month table of `build.rs`
(the `length` accessor itself is generated only in a later revision of
`build.rs`; spec section 4.2 specifies it as "days in that month for that year
kind"). -/
def Month.length (m : Month) (year_kind : YearKind) : Nat :=
  match m with
  | .January => 31
  | .February => match year_kind with | .Common => 28 | .Leap => 29
  | .March => 31
  | .April => 30
  | .May => 31
  | .June => 30
  | .July => 31
  | .August => 31
  | .September => 30
  | .October => 31
  | .November => 30
  | .December => 31

/-- `NaiveDateTime` from `src/lib.rs`.  `year` is an `i32` (proleptic ISO
year: 1 BC is 0, 2 BC is -1, ...); `day`, `hour`, `minute`, `second` are `u8`
fields, modelled as `Nat` (no constructor enforces any range, as the spec
notes in section 7). -/
structure NaiveDateTime where
  year : Int
  month : Month
  day : Nat
  hour : Nat
  minute : Nat
  second : Nat
  deriving DecidableEq, Repr

/-- `positive_rem` from `src/num.rs` (also inlined in `src/lib.rs`):
remainder within `0..divisor`, even for negative dividends.  Rust `%` is the
truncating remainder; for a positive divisor neither the `%` nor the `+`
can overflow, so no wrap is needed. -/
def positive_rem (dividend divisor : Int) : Int :=
  let rem := dividend.tmod divisor
  if rem < 0 then rem + divisor else rem

/-- `div_floor` from `src/num.rs` (and the `div_floor!` macro of `src/lib.rs`),
instantiated at a `w`-bit signed integer type: integer division rounding
towards negative infinity.  The shifted dividend `dividend + 1 - divisor` is
computed in `w`-bit arithmetic and overflows when `dividend + 1 - divisor`
falls below `-2 ^ (w - 1)`, hence the wrap. -/
def div_floor (w : Nat) (dividend divisor : Int) : Int :=
  if 0 < dividend then
    dividend.tdiv divisor
  else
    (wrapI w (dividend + 1 - divisor)).tdiv divisor

/-- `leap_days_since_y0` from `src/time_zones.rs` (and `src/lib.rs`): how many
leap days occurred between January of year 0 and January of the given year.
All arithmetic is on `i32`.  In the `year > 0` branch no operation can
overflow.  In the other branch the negation `-year` overflows exactly at
`year = -2 ^ 31`, hence the wrap there; the following quotient combination is
too small to overflow. -/
def leap_days_since_y0 (year : Int) : Int :=
  if 0 < year then
    let y := year - 1
    y.tdiv 4 - y.tdiv 100 + y.tdiv 400 + 1
  else
    let y := wrapI 32 (-year);
    -(y.tdiv 4 - y.tdiv 100 + y.tdiv 400)

/-- `days_since_d0` from `src/time_zones.rs` (and `src/lib.rs`): days between
January 1st of year 0 and January 1st of the given year, in `i32` arithmetic
(both the multiplication and the addition can overflow). -/
def days_since_d0 (year : Int) : Int :=
  wrapI 32 (wrapI 32 (year * DAYS_PER_COMMON_YEAR) + leap_days_since_y0 year)

/-- `days_since_unix` from `src/time_zones.rs` (identical to
`NaiveDateTime::days_since_unix` in `src/lib.rs`), in `i32` arithmetic, each
binary operation wrapped in evaluation order.  `i32::from(self.day - 1)` is a
`u8` subtraction (wrapping at `day = 0`) followed by an exact widening cast,
modelled by `(day + 255) % 256` on `Nat`. -/
def days_since_unix (d : NaiveDateTime) : Int :=
  wrapI 32 (wrapI 32 (wrapI 32 (wrapI 32 (wrapI 32 (wrapI 32 (d.year - 1970) * DAYS_PER_COMMON_YEAR)
    + leap_days_since_y0 d.year) - leap_days_since_y0 1970)
    + d.month.days_since_january_1st (YearKind.fromInt d.year))
    + ((d.day + 255) % 256 : Nat))

/-- `LocalTimeConversionError` from `src/time_zones.rs` (an opaque marker). -/
structure LocalTimeConversionError where
  deriving DecidableEq, Repr

/-- `Result::unwrap` on conversion results.  The `error` branch is a Rust
panic; for the unambiguous time zones (`Utc`, `FixedOffsetFromUtc`) whose
`to_timestamp` is unconditionally `Ok`, it is never reached, so the junk value
`0` is never produced. -/
def unwrapTimestamp : Except LocalTimeConversionError Int → Int
  | .ok t => t
  | .error _ => 0

/-- `<Utc as TimeZone>::from_timestamp` from `src/time_zones.rs` (identical to
`impl From<UnixTimestamp> for DateTime<Utc>` in `src/lib.rs`).  The
`as i32` cast of the day count and the `i32` products/sums are wrapped; the
`as u8` casts of hour/minute/second are exact because `positive_rem` already
lies in `[0, 24)` resp. `[0, 60)`.  The `panic!` inside
`Month::from_day_of_the_year` propagates as `none`. -/
def Utc.from_timestamp (t : Int) : Option NaiveDateTime :=
  let days_count := wrapI 32 (div_floor 64 t SECONDS_PER_DAY)
  let days := wrapI 32 (days_count + days_since_d0 1970)
  let year := div_floor 32 (wrapI 32 (days * 400)) DAYS_PER_400YEARS
  let day_of_the_year := wrapI 32 (days - days_since_d0 year)
  (Month.from_day_of_the_year day_of_the_year (YearKind.fromInt year)).map
    fun md =>
      { year := year
        month := md.1
        day := md.2
        hour := (positive_rem (div_floor 64 t SECONDS_PER_HOUR) 24).toNat
        minute := (positive_rem (div_floor 64 t SECONDS_PER_MINUTE) 60).toNat
        second := (positive_rem t 60).toNat }

/-- `<Utc as TimeZone>::to_timestamp` from `src/time_zones.rs` (identical to
`impl From<DateTime<Utc>> for UnixTimestamp` in `src/lib.rs`).  The `i64`
arithmetic cannot overflow: `days_since_unix` is an `i32` value, so the sum is
bounded by `2 ^ 31 * 86400 + 255 * 3600 + 255 * 60 + 255 < 2 ^ 63`. -/
def Utc.to_timestamp (d : NaiveDateTime) : Except LocalTimeConversionError Int :=
  .ok (days_since_unix d * SECONDS_PER_DAY
    + d.hour * SECONDS_PER_HOUR
    + d.minute * SECONDS_PER_MINUTE
    + d.second)

/-- `UnambiguousTimeZone::to_unambiguous_timestamp` (default trait method),
instantiated at `Utc`. -/
def Utc.to_unambiguous_timestamp (d : NaiveDateTime) : Int :=
  unwrapTimestamp (Utc.to_timestamp d)

/-- `FixedOffsetFromUtc` from `src/time_zones.rs`: an `i32` count of seconds
ahead of UTC. -/
structure FixedOffsetFromUtc where
  seconds_ahead_of_utc : Int
  deriving DecidableEq, Repr

/-- `FixedOffsetFromUtc::from_hours_and_minutes`; the `i32` product can
overflow for enormous hour values, hence the wrap. -/
def FixedOffsetFromUtc.from_hours_and_minutes (hours minutes : Int) :
    FixedOffsetFromUtc :=
  ⟨wrapI 32 ((hours * 60 + minutes) * 60)⟩

/-- `<FixedOffsetFromUtc as TimeZone>::from_timestamp`: evaluate UTC's table at
the timestamp shifted by the offset.  The `i64` addition wraps at the ends of
the `i64` range. -/
def FixedOffsetFromUtc.from_timestamp (z : FixedOffsetFromUtc) (t : Int) :
    Option NaiveDateTime :=
  Utc.from_timestamp (wrapI 64 (t + z.seconds_ahead_of_utc))

/-- `<FixedOffsetFromUtc as TimeZone>::to_timestamp`: always `Ok`.  The `i64`
subtraction cannot overflow (`|Utc timestamp| < 2 ^ 48` and the offset is an
`i32` value). -/
def FixedOffsetFromUtc.to_timestamp (z : FixedOffsetFromUtc)
    (d : NaiveDateTime) : Except LocalTimeConversionError Int :=
  let seconds := Utc.to_unambiguous_timestamp d
  .ok (seconds - z.seconds_ahead_of_utc)

/-- `UnambiguousTimeZone::to_unambiguous_timestamp` instantiated at
`FixedOffsetFromUtc`. -/
def FixedOffsetFromUtc.to_unambiguous_timestamp (z : FixedOffsetFromUtc)
    (d : NaiveDateTime) : Int :=
  unwrapTimestamp (z.to_timestamp d)

/-- The `DaylightSaving` trait from `src/time_zones.rs`: two fixed offsets and
a predicate, as a structure (the blanket `impl<Tz: DaylightSaving> TimeZone`
below is generic over it).  The predicate is total here; `CentralEurope`'s
partial (panicking) predicate is modelled separately. -/
structure DaylightSaving where
  offset_outside_dst : FixedOffsetFromUtc
  offset_during_dst : FixedOffsetFromUtc
  is_in_dst : Int → Bool

/-- `<Tz as TimeZone>::from_timestamp` of the blanket impl for
`Tz: DaylightSaving`. -/
def DaylightSaving.from_timestamp (z : DaylightSaving) (t : Int) :
    Option NaiveDateTime :=
  let offset := if z.is_in_dst t then z.offset_during_dst else z.offset_outside_dst
  offset.from_timestamp t

/-- `<Tz as TimeZone>::to_timestamp` of the blanket impl for
`Tz: DaylightSaving`: the two-sided ambiguity check. -/
def DaylightSaving.to_timestamp (z : DaylightSaving) (d : NaiveDateTime) :
    Except LocalTimeConversionError Int :=
  let assuming_outside := z.offset_outside_dst.to_unambiguous_timestamp d
  let assuming_during := z.offset_during_dst.to_unambiguous_timestamp d
  match z.is_in_dst assuming_outside, z.is_in_dst assuming_during with
  | true, true => .ok assuming_during
  | false, false => .ok assuming_outside
  | _, _ => .error ⟨⟩

/-- The `DayOfTheWeek` enum.  Its definition is not among the provided source
files (only its callers in `src/time_zones.rs` and `src/tests.rs` are);
modelled from the spec, section 3: "enum with 7 variants numbered 1 (Monday)
through 7 (Sunday) per ISO 8601". -/
inductive DayOfTheWeek
  | Monday
  | Tuesday
  | Wednesday
  | Thursday
  | Friday
  | Saturday
  | Sunday
  deriving DecidableEq, Repr

/-- ISO 8601 number of a day of the week (Monday = 1 ... Sunday = 7). -/
def DayOfTheWeek.to_iso_number : DayOfTheWeek → Nat
  | .Monday => 1
  | .Tuesday => 2
  | .Wednesday => 3
  | .Thursday => 4
  | .Friday => 5
  | .Saturday => 6
  | .Sunday => 7

/-- Inverse of `to_iso_number` (helper for the spec model below; the argument
is always in `[1, 7]` where it is used). -/
def DayOfTheWeek.from_iso : Nat → DayOfTheWeek
  | 1 => .Monday
  | 2 => .Tuesday
  | 3 => .Wednesday
  | 4 => .Thursday
  | 5 => .Friday
  | 6 => .Saturday
  | _ => .Sunday

/-- Modelled from the spec: `NaiveDateTime::day_of_the_week` is missing from
the provided sources (only its callers are); spec section 4.5 specifies it as
the "anchor constant (the Unix epoch, 1970-01-01, is a Thursday) plus the
signed day-count from the Day-Counting Engine, added modulo 7 with
positive-residue semantics".  Thursday is ISO 4, so the ISO number is
`positive_rem(days + 3, 7) + 1`; this reproduces all four day-of-week test
vectors of `src/tests.rs`. -/
def NaiveDateTime.day_of_the_week (d : NaiveDateTime) : DayOfTheWeek :=
  DayOfTheWeek.from_iso ((positive_rem (days_since_unix d + 3) 7).toNat + 1)

/-- `last_of_the_month` from `src/time_zones.rs`: the day of the month of the
last `requested_dow` (e.g. Sunday) of the month of `d`.  The `u8` subtraction
cannot wrap (`positive_rem _ 7 ≤ 6 < 28 ≤ last_day`). -/
def last_of_the_month (d : NaiveDateTime) (requested_dow : DayOfTheWeek) : Nat :=
  let last_day := d.month.length (YearKind.fromInt d.year)
  let last_dow := NaiveDateTime.day_of_the_week
    ⟨d.year, d.month, last_day, 0, 0, 0⟩
  let difference : Int :=
    (last_dow.to_iso_number : Int) - (requested_dow.to_iso_number : Int)
  last_day - (positive_rem difference 7).toNat

/-- `before_last_sunday_1_am` from `src/time_zones.rs`.  The Rust tuple
comparison `(hour, minute, second) < (1, 0, 0)` is lexicographic on unsigned
fields, which reduces to `hour < 1`. -/
def before_last_sunday_1_am (d : NaiveDateTime) : Bool :=
  let last_sunday := last_of_the_month d .Sunday
  decide (d.day < last_sunday)
    || (decide (d.day = last_sunday) && decide (d.hour < 1))

/-- `CentralEurope::offset_outside_dst` (CET, UTC+1). -/
def CentralEurope.offset_outside_dst : FixedOffsetFromUtc :=
  FixedOffsetFromUtc.from_hours_and_minutes 1 0

/-- `CentralEurope::offset_during_dst` (CEST, UTC+2). -/
def CentralEurope.offset_during_dst : FixedOffsetFromUtc :=
  FixedOffsetFromUtc.from_hours_and_minutes 2 0

/-- `CentralEurope::is_in_dst` from `src/time_zones.rs`.  It first converts the
timestamp through `DateTime::from_timestamp(t, Utc)` (the facade is
`tz.from_timestamp(t)` per spec section 4.6), whose `panic!` propagates as
`none`.  The `<` / `>` comparisons on `Month` are the derived enum order,
i.e. comparisons of the discriminants `Month.number`.  The final
`unreachable!()` arm of the source is dead (the month is March or October
there); it is modelled by `false`. -/
def CentralEurope.is_in_dst (t : Int) : Option Bool :=
  (Utc.from_timestamp t).map fun d =>
    if d.month.number < Month.March.number ∨ Month.October.number < d.month.number then
      false
    else if Month.March.number < d.month.number ∧ d.month.number < Month.October.number then
      true
    else if d.month = Month.March then
      ! before_last_sunday_1_am d
    else if d.month = Month.October then
      before_last_sunday_1_am d
    else
      false

/-- Specification-side predicate: the Gregorian leap-year rule by divisibility
(spec section 4.1). -/
def gregorianLeap (k : Int) : Prop :=
  4 ∣ k ∧ (¬ (100 : Int) ∣ k ∨ (400 : Int) ∣ k)

instance : DecidablePred gregorianLeap := fun k => by
  unfold gregorianLeap; infer_instance

/-- Specification-side count: the number of Gregorian leap years `k` with
`0 ≤ k ≤ n - 1`. -/
def countLeapUpTo : Nat → Nat
  | 0 => 0
  | n + 1 => countLeapUpTo n + (if gregorianLeap (n : Int) then 1 else 0)

/-- Specification-side count: the number of Gregorian leap years `k` with
`-m ≤ k ≤ -1`. -/
def countLeapNeg : Nat → Nat
  | 0 => 0
  | m + 1 => countLeapNeg m + (if gregorianLeap (-((m : Int) + 1)) then 1 else 0)

/-! ### Helper lemmas -/

theorem wrapI_eq_self {w : Nat} (hw : 1 ≤ w) {x : Int}
    (h1 : -(2 ^ (w - 1)) ≤ x) (h2 : x < 2 ^ (w - 1)) : wrapI w x = x := by
  have hww : (2 : Int) ^ w = 2 ^ (w - 1) * 2 := by
    rw [← pow_succ]
    congr 1
    omega
  have hp : (0 : Int) < 2 ^ (w - 1) := by positivity
  unfold wrapI
  rw [hww, Int.emod_eq_of_lt (by omega) (by omega)]
  omega

theorem wrap32_eq_self {x : Int} (h1 : -2147483648 ≤ x) (h2 : x < 2147483648) :
    wrapI 32 x = x := by
  unfold wrapI
  norm_num
  omega

theorem wrap64_eq_self {x : Int}
    (h1 : -9223372036854775808 ≤ x) (h2 : x < 9223372036854775808) :
    wrapI 64 x = x := by
  unfold wrapI
  norm_num
  omega

theorem tmod_neg_dividend (a b : Int) : (-a).tmod b = -(a.tmod b) := by
  rw [Int.tmod_def, Int.tmod_def, Int.neg_tdiv]
  ring

theorem neg_lt_tmod (a : Int) {b : Int} (hb : 0 < b) : -b < a.tmod b := by
  have h := Int.tmod_lt_of_pos (-a) hb
  rw [tmod_neg_dividend] at h
  omega

theorem positive_rem_nonneg (a : Int) {b : Int} (hb : 0 < b) :
    0 ≤ positive_rem a b := by
  have h := neg_lt_tmod a hb
  simp only [positive_rem]
  split <;> omega

theorem positive_rem_lt (a : Int) {b : Int} (hb : 0 < b) :
    positive_rem a b < b := by
  have h := Int.tmod_lt_of_pos a hb
  simp only [positive_rem]
  split <;> omega

theorem positive_rem_eq_emod (a : Int) {b : Int} (hb : 0 < b) :
    positive_rem a b = a % b := by
  have hq : b * a.tdiv b + a.tmod b = a := Int.tdiv_add_tmod a b
  have h1 : a % b = a.tmod b % b := by
    conv_lhs => rw [← hq, Int.add_comm]
    exact Int.add_mul_emod_self_left ..
  have hub := Int.tmod_lt_of_pos a hb
  have hlb := neg_lt_tmod a hb
  by_cases hr : a.tmod b < 0
  · have h2 : (a.tmod b + b) % b = a.tmod b % b := by
      have h0 := Int.add_mul_emod_self_left (a.tmod b) b 1
      rwa [mul_one] at h0
    have h3 : a.tmod b % b = a.tmod b + b := by
      rw [← h2, Int.emod_eq_of_lt (by omega) (by omega)]
    simp only [positive_rem]
    rw [if_pos hr, h1, h3]
  · simp only [positive_rem]
    rw [if_neg hr, h1, Int.emod_eq_of_lt (by omega) (by omega)]

theorem tdiv_bounds (a b : Int) (ha : 0 ≤ a) (hb : 0 < b) :
    0 ≤ a.tdiv b ∧ a.tdiv b ≤ a := by
  rw [Int.tdiv_eq_ediv ha (by omega)]
  exact ⟨Int.ediv_nonneg ha (by omega), Int.ediv_le_self b ha⟩

theorem div_floor_lb_ub {w : Nat} (hw : 1 ≤ w) {a b : Int} (hb : 0 < b)
    (h : 0 < a ∨ -(2 ^ (w - 1)) ≤ a + 1 - b) :
    b * div_floor w a b ≤ a ∧ a < b * div_floor w a b + b := by
  unfold div_floor
  by_cases ha : 0 < a
  · rw [if_pos ha, Int.tdiv_eq_ediv (by omega) (by omega)]
    have h1 := Int.ediv_add_emod a b
    have h2 := Int.emod_nonneg a (by omega : b ≠ 0)
    have h3 := Int.emod_lt_of_pos a hb
    constructor <;> linarith
  · rw [if_neg ha]
    rcases h with h | h
    · exact absurd h ha
    · have hp : (0 : Int) < 2 ^ (w - 1) := by positivity
      rw [wrapI_eq_self hw h (by omega)]
      have hc : a + 1 - b = -(b - 1 - a) := by ring
      rw [hc, Int.neg_tdiv, Int.tdiv_eq_ediv (by omega) (by omega)]
      have h1 := Int.ediv_add_emod (b - 1 - a) b
      have h2 := Int.emod_nonneg (b - 1 - a) (by omega : b ≠ 0)
      have h3 := Int.emod_lt_of_pos (b - 1 - a) hb
      have h4 : b * -((b - 1 - a) / b) = -(b * ((b - 1 - a) / b)) := by ring
      rw [h4]
      constructor <;> linarith

theorem gregorianLeap_natCast (n : Nat) :
    gregorianLeap (n : Int) ↔ (4 ∣ n ∧ (¬ 100 ∣ n ∨ 400 ∣ n)) := by
  unfold gregorianLeap
  constructor
  · rintro ⟨h4, h⟩
    refine ⟨by exact_mod_cast h4, ?_⟩
    rcases h with h | h
    · exact Or.inl fun hc => h (by exact_mod_cast hc)
    · exact Or.inr (by exact_mod_cast h)
  · rintro ⟨h4, h⟩
    refine ⟨by exact_mod_cast h4, ?_⟩
    rcases h with h | h
    · exact Or.inl fun hc => h (by exact_mod_cast hc)
    · exact Or.inr (by exact_mod_cast h)

theorem gregorianLeap_neg (k : Int) : gregorianLeap (-k) ↔ gregorianLeap k := by
  unfold gregorianLeap
  simp [dvd_neg]

theorem gregorianLeap_neg_cast (n : Nat) :
    gregorianLeap (-((n : Int) + 1)) ↔
      (4 ∣ (n + 1) ∧ (¬ 100 ∣ (n + 1) ∨ 400 ∣ (n + 1))) := by
  have hc : ((n : Int) + 1) = ((n + 1 : Nat) : Int) := by push_cast; ring
  rw [hc, gregorianLeap_neg, gregorianLeap_natCast]

theorem countLeapUpTo_formula (n : Nat) :
    (countLeapUpTo (n + 1) : Int) =
      ((n / 4 : Nat) : Int) - ((n / 100 : Nat) : Int) + ((n / 400 : Nat) : Int) + 1 := by
  induction n with
  | zero => decide
  | succ m ih =>
    rw [show countLeapUpTo (m + 1 + 1)
        = countLeapUpTo (m + 1) + (if gregorianLeap ((m + 1 : Nat) : Int) then 1 else 0)
      from rfl]
    rw [Nat.succ_div m 4, Nat.succ_div m 100, Nat.succ_div m 400]
    simp only [gregorianLeap_natCast]
    by_cases h4 : 4 ∣ (m + 1) <;> by_cases h100 : 100 ∣ (m + 1) <;>
      by_cases h400 : 400 ∣ (m + 1) <;>
        first
          | exact absurd (Nat.dvd_trans (by norm_num) h400) h100
          | exact absurd (Nat.dvd_trans (by norm_num) h100) h4
          | (simp only [h4, h100, h400, if_true, if_false, not_true, not_false_iff,
               true_and, false_and, and_true, and_false, true_or, or_true, false_or,
               or_false, ite_true, ite_false, not_false_eq_true, not_true_eq_false]
             push_cast
             omega)

theorem countLeapNeg_formula (m : Nat) :
    (countLeapNeg m : Int) =
      ((m / 4 : Nat) : Int) - ((m / 100 : Nat) : Int) + ((m / 400 : Nat) : Int) := by
  induction m with
  | zero => decide
  | succ k ih =>
    rw [show countLeapNeg (k + 1)
        = countLeapNeg k + (if gregorianLeap (-((k : Int) + 1)) then 1 else 0)
      from rfl]
    rw [Nat.succ_div k 4, Nat.succ_div k 100, Nat.succ_div k 400]
    simp only [gregorianLeap_neg_cast]
    by_cases h4 : 4 ∣ (k + 1) <;> by_cases h100 : 100 ∣ (k + 1) <;>
      by_cases h400 : 400 ∣ (k + 1) <;>
        first
          | exact absurd (Nat.dvd_trans (by norm_num) h400) h100
          | exact absurd (Nat.dvd_trans (by norm_num) h100) h4
          | (simp only [h4, h100, h400, if_true, if_false, not_true, not_false_iff,
               true_and, false_and, and_true, and_false, true_or, or_true, false_or,
               or_false, ite_true, ite_false, not_false_eq_true, not_true_eq_false]
             push_cast
             omega)

theorem leap_days_pos_eq (y : Int) (hy : 0 < y) :
    leap_days_since_y0 y = (countLeapUpTo y.toNat : Int) := by
  simp only [leap_days_since_y0]
  rw [if_pos hy]
  obtain ⟨n, hn⟩ : ∃ n : Nat, y = (n : Int) + 1 := ⟨(y - 1).toNat, by omega⟩
  subst hn
  have h1 : ((n : Int) + 1) - 1 = (n : Int) := by ring
  have h2 : ((n : Int) + 1).toNat = n + 1 := by omega
  rw [h1, h2, countLeapUpTo_formula n,
    show ((n : Int)).tdiv 4 = ((n / 4 : Nat) : Int) from (Int.ofNat_tdiv n 4).symm,
    show ((n : Int)).tdiv 100 = ((n / 100 : Nat) : Int) from (Int.ofNat_tdiv n 100).symm,
    show ((n : Int)).tdiv 400 = ((n / 400 : Nat) : Int) from (Int.ofNat_tdiv n 400).symm]

theorem leap_days_nonpos_eq (y : Int) (hlb : -2147483648 < y) (hy : y ≤ 0) :
    leap_days_since_y0 y = -(countLeapNeg (-y).toNat : Int) := by
  simp only [leap_days_since_y0]
  rw [if_neg (by omega : ¬ 0 < y), wrap32_eq_self (by omega) (by omega)]
  obtain ⟨m, hm⟩ : ∃ m : Nat, -y = (m : Int) := ⟨(-y).toNat, by omega⟩
  rw [hm, show ((m : Int)).toNat = m from Int.toNat_natCast m,
    countLeapNeg_formula m,
    show ((m : Int)).tdiv 4 = ((m / 4 : Nat) : Int) from (Int.ofNat_tdiv m 4).symm,
    show ((m : Int)).tdiv 100 = ((m / 100 : Nat) : Int) from (Int.ofNat_tdiv m 100).symm,
    show ((m : Int)).tdiv 400 = ((m / 400 : Nat) : Int) from (Int.ofNat_tdiv m 400).symm]

theorem leap_days_step (y : Int) (hlb : -2147483648 < y) (hub : y < 2147483647) :
    leap_days_since_y0 (y + 1) =
      leap_days_since_y0 y + (if gregorianLeap y then 1 else 0) := by
  rcases lt_trichotomy y 0 with hneg | rfl | hpos
  · have h1 := leap_days_nonpos_eq (y + 1) (by omega) (by omega)
    have h2 := leap_days_nonpos_eq y hlb (by omega)
    rw [h1, h2]
    obtain ⟨k, hk⟩ : ∃ k : Nat, -y = (k : Int) + 1 := ⟨(-y - 1).toNat, by omega⟩
    have e1 : (-(y + 1)).toNat = k := by omega
    have e2 : (-y).toNat = k + 1 := by omega
    rw [e1, e2,
      show countLeapNeg (k + 1)
        = countLeapNeg k + (if gregorianLeap (-((k : Int) + 1)) then 1 else 0) from rfl,
      show -((k : Int) + 1) = y by omega]
    by_cases hg : gregorianLeap y <;> simp [hg]
  · decide
  · have h1 := leap_days_pos_eq (y + 1) (by omega)
    have h2 := leap_days_pos_eq y hpos
    rw [h1, h2]
    obtain ⟨n, hn⟩ : ∃ n : Nat, y = (n : Int) := ⟨y.toNat, by omega⟩
    have e1 : (y + 1).toNat = n + 1 := by omega
    have e2 : y.toNat = n := by omega
    rw [e1, e2,
      show countLeapUpTo (n + 1)
        = countLeapUpTo n + (if gregorianLeap (n : Int) then 1 else 0) from rfl,
      show (n : Int) = y from hn.symm]
    by_cases hg : gregorianLeap y <;> simp [hg]

theorem leap_days_mono (y z : Int) (hlb : -2147483648 < y) (hub : z < 2147483648)
    (hyz : y ≤ z) : leap_days_since_y0 y ≤ leap_days_since_y0 z := by
  have key : ∀ n : Int, y ≤ n →
      (n < 2147483648 → leap_days_since_y0 y ≤ leap_days_since_y0 n) := by
    intro n hn
    refine @Int.le_induction
      (fun n => n < 2147483648 → leap_days_since_y0 y ≤ leap_days_since_y0 n)
      y ?_ ?_ n hn
    · intro _
      exact le_refl _
    · intro k hk ih hk1
      have h1 : leap_days_since_y0 (k + 1)
          = leap_days_since_y0 k + (if gregorianLeap k then 1 else 0) :=
        leap_days_step k (by omega) (by omega)
      have h2 := ih (by omega)
      split at h1 <;> omega
  exact key z hyz hub

theorem days_since_january_1st_bounds (m : Month) (k : YearKind) :
    0 ≤ m.days_since_january_1st k ∧ m.days_since_january_1st k ≤ 335 := by
  cases m <;> cases k <;> decide

theorem month_length_le (m : Month) (k : YearKind) : m.length k ≤ 31 := by
  cases m <;> cases k <;> decide

theorem leap_days_small_bound {y : Int} (h1 : -5000000 ≤ y) (h2 : y ≤ 5000000) :
    -10000000 ≤ leap_days_since_y0 y ∧ leap_days_since_y0 y ≤ 10000000 := by
  simp only [leap_days_since_y0]
  split_ifs with hy
  · have t4 := tdiv_bounds (y - 1) 4 (by omega) (by norm_num)
    have t100 := tdiv_bounds (y - 1) 100 (by omega) (by norm_num)
    have t400 := tdiv_bounds (y - 1) 400 (by omega) (by norm_num)
    omega
  · rw [wrap32_eq_self (by omega) (by omega)]
    have t4 := tdiv_bounds (-y) 4 (by omega) (by norm_num)
    have t100 := tdiv_bounds (-y) 100 (by omega) (by norm_num)
    have t400 := tdiv_bounds (-y) 400 (by omega) (by norm_num)
    omega

set_option maxHeartbeats 2000000 in
theorem from_day_of_the_year_bounds (doy : Int) (k : YearKind) (m : Month)
    (day : Nat) (h : Month.from_day_of_the_year doy k = some (m, day)) :
    1 ≤ day ∧ day ≤ m.length k := by
  cases k
  case Common =>
    simp only [Month.from_day_of_the_year] at h
    by_cases hc0 : (0 ≤ doy ∧ doy ≤ 30)
    · rw [if_pos hc0] at h
      simp only [Option.some.injEq, Prod.mk.injEq] at h
      obtain ⟨rfl, rfl⟩ := h
      simp only [Month.length]
      omega
    · rw [if_neg hc0] at h
      by_cases hc1 : (31 ≤ doy ∧ doy ≤ 58)
      · rw [if_pos hc1] at h
        simp only [Option.some.injEq, Prod.mk.injEq] at h
        obtain ⟨rfl, rfl⟩ := h
        simp only [Month.length]
        omega
      · rw [if_neg hc1] at h
        by_cases hc2 : (59 ≤ doy ∧ doy ≤ 89)
        · rw [if_pos hc2] at h
          simp only [Option.some.injEq, Prod.mk.injEq] at h
          obtain ⟨rfl, rfl⟩ := h
          simp only [Month.length]
          omega
        · rw [if_neg hc2] at h
          by_cases hc3 : (90 ≤ doy ∧ doy ≤ 119)
          · rw [if_pos hc3] at h
            simp only [Option.some.injEq, Prod.mk.injEq] at h
            obtain ⟨rfl, rfl⟩ := h
            simp only [Month.length]
            omega
          · rw [if_neg hc3] at h
            by_cases hc4 : (120 ≤ doy ∧ doy ≤ 150)
            · rw [if_pos hc4] at h
              simp only [Option.some.injEq, Prod.mk.injEq] at h
              obtain ⟨rfl, rfl⟩ := h
              simp only [Month.length]
              omega
            · rw [if_neg hc4] at h
              by_cases hc5 : (151 ≤ doy ∧ doy ≤ 180)
              · rw [if_pos hc5] at h
                simp only [Option.some.injEq, Prod.mk.injEq] at h
                obtain ⟨rfl, rfl⟩ := h
                simp only [Month.length]
                omega
              · rw [if_neg hc5] at h
                by_cases hc6 : (181 ≤ doy ∧ doy ≤ 211)
                · rw [if_pos hc6] at h
                  simp only [Option.some.injEq, Prod.mk.injEq] at h
                  obtain ⟨rfl, rfl⟩ := h
                  simp only [Month.length]
                  omega
                · rw [if_neg hc6] at h
                  by_cases hc7 : (212 ≤ doy ∧ doy ≤ 242)
                  · rw [if_pos hc7] at h
                    simp only [Option.some.injEq, Prod.mk.injEq] at h
                    obtain ⟨rfl, rfl⟩ := h
                    simp only [Month.length]
                    omega
                  · rw [if_neg hc7] at h
                    by_cases hc8 : (243 ≤ doy ∧ doy ≤ 272)
                    · rw [if_pos hc8] at h
                      simp only [Option.some.injEq, Prod.mk.injEq] at h
                      obtain ⟨rfl, rfl⟩ := h
                      simp only [Month.length]
                      omega
                    · rw [if_neg hc8] at h
                      by_cases hc9 : (273 ≤ doy ∧ doy ≤ 303)
                      · rw [if_pos hc9] at h
                        simp only [Option.some.injEq, Prod.mk.injEq] at h
                        obtain ⟨rfl, rfl⟩ := h
                        simp only [Month.length]
                        omega
                      · rw [if_neg hc9] at h
                        by_cases hc10 : (304 ≤ doy ∧ doy ≤ 333)
                        · rw [if_pos hc10] at h
                          simp only [Option.some.injEq, Prod.mk.injEq] at h
                          obtain ⟨rfl, rfl⟩ := h
                          simp only [Month.length]
                          omega
                        · rw [if_neg hc10] at h
                          by_cases hc11 : (334 ≤ doy ∧ doy ≤ 364)
                          · rw [if_pos hc11] at h
                            simp only [Option.some.injEq, Prod.mk.injEq] at h
                            obtain ⟨rfl, rfl⟩ := h
                            simp only [Month.length]
                            omega
                          · rw [if_neg hc11] at h
                            exact Option.noConfusion h
  case Leap =>
    simp only [Month.from_day_of_the_year] at h
    by_cases hc0 : (0 ≤ doy ∧ doy ≤ 30)
    · rw [if_pos hc0] at h
      simp only [Option.some.injEq, Prod.mk.injEq] at h
      obtain ⟨rfl, rfl⟩ := h
      simp only [Month.length]
      omega
    · rw [if_neg hc0] at h
      by_cases hc1 : (31 ≤ doy ∧ doy ≤ 59)
      · rw [if_pos hc1] at h
        simp only [Option.some.injEq, Prod.mk.injEq] at h
        obtain ⟨rfl, rfl⟩ := h
        simp only [Month.length]
        omega
      · rw [if_neg hc1] at h
        by_cases hc2 : (60 ≤ doy ∧ doy ≤ 90)
        · rw [if_pos hc2] at h
          simp only [Option.some.injEq, Prod.mk.injEq] at h
          obtain ⟨rfl, rfl⟩ := h
          simp only [Month.length]
          omega
        · rw [if_neg hc2] at h
          by_cases hc3 : (91 ≤ doy ∧ doy ≤ 120)
          · rw [if_pos hc3] at h
            simp only [Option.some.injEq, Prod.mk.injEq] at h
            obtain ⟨rfl, rfl⟩ := h
            simp only [Month.length]
            omega
          · rw [if_neg hc3] at h
            by_cases hc4 : (121 ≤ doy ∧ doy ≤ 151)
            · rw [if_pos hc4] at h
              simp only [Option.some.injEq, Prod.mk.injEq] at h
              obtain ⟨rfl, rfl⟩ := h
              simp only [Month.length]
              omega
            · rw [if_neg hc4] at h
              by_cases hc5 : (152 ≤ doy ∧ doy ≤ 181)
              · rw [if_pos hc5] at h
                simp only [Option.some.injEq, Prod.mk.injEq] at h
                obtain ⟨rfl, rfl⟩ := h
                simp only [Month.length]
                omega
              · rw [if_neg hc5] at h
                by_cases hc6 : (182 ≤ doy ∧ doy ≤ 212)
                · rw [if_pos hc6] at h
                  simp only [Option.some.injEq, Prod.mk.injEq] at h
                  obtain ⟨rfl, rfl⟩ := h
                  simp only [Month.length]
                  omega
                · rw [if_neg hc6] at h
                  by_cases hc7 : (213 ≤ doy ∧ doy ≤ 243)
                  · rw [if_pos hc7] at h
                    simp only [Option.some.injEq, Prod.mk.injEq] at h
                    obtain ⟨rfl, rfl⟩ := h
                    simp only [Month.length]
                    omega
                  · rw [if_neg hc7] at h
                    by_cases hc8 : (244 ≤ doy ∧ doy ≤ 273)
                    · rw [if_pos hc8] at h
                      simp only [Option.some.injEq, Prod.mk.injEq] at h
                      obtain ⟨rfl, rfl⟩ := h
                      simp only [Month.length]
                      omega
                    · rw [if_neg hc8] at h
                      by_cases hc9 : (274 ≤ doy ∧ doy ≤ 304)
                      · rw [if_pos hc9] at h
                        simp only [Option.some.injEq, Prod.mk.injEq] at h
                        obtain ⟨rfl, rfl⟩ := h
                        simp only [Month.length]
                        omega
                      · rw [if_neg hc9] at h
                        by_cases hc10 : (305 ≤ doy ∧ doy ≤ 334)
                        · rw [if_pos hc10] at h
                          simp only [Option.some.injEq, Prod.mk.injEq] at h
                          obtain ⟨rfl, rfl⟩ := h
                          simp only [Month.length]
                          omega
                        · rw [if_neg hc10] at h
                          by_cases hc11 : (335 ≤ doy ∧ doy ≤ 365)
                          · rw [if_pos hc11] at h
                            simp only [Option.some.injEq, Prod.mk.injEq] at h
                            obtain ⟨rfl, rfl⟩ := h
                            simp only [Month.length]
                            omega
                          · rw [if_neg hc11] at h
                            exact Option.noConfusion h

/-! ### Claim theorems -/

/-- C8 (amended): for every word size `w ≥ 1`, every dividend `a` and every
divisor `b > 0` such that the shifted dividend `a + 1 - b` does not underflow
the `w`-bit range (in particular for the `i32` and `i64` instantiations away
from the lower type boundary), `div_floor` is floor division — the quotient
`q` satisfies `b*q ≤ a < b*(q+1)` — `positive_rem` lies in `[0, b)`, and
together they satisfy the division identity `a = b*q + r`. -/
theorem div_floor_positive_rem_floor_semantics
    (w : Nat) (a b : Int) (hw : 1 ≤ w) (hb : 0 < b)
    (h : 0 < a ∨ -(2 ^ (w - 1)) ≤ a + 1 - b) :
    b * div_floor w a b ≤ a ∧ a < b * div_floor w a b + b ∧
    0 ≤ positive_rem a b ∧ positive_rem a b < b ∧
    a = b * div_floor w a b + positive_rem a b := by
  obtain ⟨h1, h2⟩ := div_floor_lb_ub hw hb h
  have h3 := positive_rem_nonneg a hb
  have h4 := positive_rem_lt a hb
  refine ⟨h1, h2, h3, h4, ?_⟩
  have h5 := positive_rem_eq_emod a hb
  have h6 : (a - b * div_floor w a b) % b = a % b := by
    have h0 := Int.add_mul_emod_self_left a b (-(div_floor w a b))
    rwa [mul_neg, ← sub_eq_add_neg] at h0
  have h7 : (a - b * div_floor w a b) % b = a - b * div_floor w a b :=
    Int.emod_eq_of_lt (by omega) (by omega)
  omega

/-- C8 witness: the theorem applied at the i32 instantiation with `a = -7`,
`b = 3` (`div_floor` is `-3` and `positive_rem` is `2`). -/
theorem div_floor_positive_rem_floor_semantics_witness :
    3 * div_floor 32 (-7) 3 ≤ -7 ∧ (-7 : Int) < 3 * div_floor 32 (-7) 3 + 3 ∧
    0 ≤ positive_rem (-7) 3 ∧ positive_rem (-7) 3 < 3 ∧
    (-7 : Int) = 3 * div_floor 32 (-7) 3 + positive_rem (-7) 3 :=
  div_floor_positive_rem_floor_semantics 32 (-7) 3 (by norm_num) (by norm_num)
    (Or.inr (by norm_num))

/-- C8 counterexample: at the i32 instantiation with dividend `-2^31` and
divisor `2`, the shifted dividend underflows `i32` and wraps, so `div_floor`
returns `1073741823` instead of the floor quotient `-2^30`; in particular the
floor lower bound `b * q ≤ a` fails. -/
theorem div_floor_i32_min_counterexample :
    div_floor 32 (-2147483648) 2 = 1073741823 ∧
    ¬ (2 * div_floor 32 (-2147483648) 2 ≤ -2147483648) := by
  constructor
  · decide
  · decide

/-- C3 (amended): for every i32 year `y` other than `-2^31` (where the
negation `-y` overflows i32), `leap_days_since_y0 y` is the signed count of
Gregorian leap days strictly between January 1 of year 0 and January 1 of
year `y`: for `y > 0` it is the number of leap years `k` with `0 ≤ k ≤ y - 1`
(year 0 counted as leap), for `y ≤ 0` it is minus the number of leap years
`k` with `y ≤ k ≤ -1`; the step from `y` to `y + 1` is exactly 1 when `y` is
a leap year and 0 otherwise, including across the zero crossing, and the
function is non-decreasing. -/
theorem leap_days_since_y0_counts :
    (∀ y : Int, 0 < y → y < 2147483648 →
       leap_days_since_y0 y = (countLeapUpTo y.toNat : Int)) ∧
    (∀ y : Int, -2147483648 < y → y ≤ 0 →
       leap_days_since_y0 y = -(countLeapNeg (-y).toNat : Int)) ∧
    (∀ y : Int, -2147483648 < y → y < 2147483647 →
       leap_days_since_y0 (y + 1) =
         leap_days_since_y0 y + (if gregorianLeap y then 1 else 0)) ∧
    (∀ y z : Int, -2147483648 < y → z < 2147483648 → y ≤ z →
       leap_days_since_y0 y ≤ leap_days_since_y0 z) := by
  refine ⟨?_, ?_, ?_, ?_⟩
  · intro y hy _
    exact leap_days_pos_eq y hy
  · intro y hlb hy
    exact leap_days_nonpos_eq y hlb hy
  · intro y hlb hub
    exact leap_days_step y hlb hub
  · intro y z hlb hub hyz
    exact leap_days_mono y z hlb hub hyz

/-- C3 witness: the count characterization applied at `y = 8` and `y = -8`
(two leap years, 0 and 4, lie in `[0, 7]`; two, -8 and -4, lie in
`[-8, -1]`). -/
theorem leap_days_since_y0_counts_witness :
    leap_days_since_y0 8 = (countLeapUpTo (Int.toNat 8) : Int) ∧
    leap_days_since_y0 (-8) = -(countLeapNeg (Int.toNat (-(-8))) : Int) :=
  ⟨leap_days_since_y0_counts.1 8 (by norm_num) (by norm_num),
   leap_days_since_y0_counts.2.1 (-8) (by norm_num) (by norm_num)⟩

/-- C3 counterexample: at `y = -2^31` (a valid i32 year) the negation `-y`
wraps back to `-2^31`, the function returns the positive value `520764785`
instead of a negated count, and in particular the claimed monotonicity fails
from `y` to `y + 1`. -/
theorem leap_days_since_y0_i32_min_counterexample :
    leap_days_since_y0 (-2147483648) = 520764785 ∧
    ¬ (leap_days_since_y0 (-2147483648) ≤ leap_days_since_y0 (-2147483647)) := by
  constructor
  · decide
  · decide

/-- C6: `YearKind::from` returns `Leap` exactly when the year is divisible by
4 and (not divisible by 100, or divisible by 400); in particular 1900 and
2100 are `Common`, while 1600, 2000, 2400 and year 0 are `Leap`. -/
theorem yearKind_from_leap_iff :
    (∀ y : Int, YearKind.fromInt y = YearKind.Leap ↔
       (4 ∣ y ∧ (¬ (100 : Int) ∣ y ∨ (400 : Int) ∣ y))) ∧
    YearKind.fromInt 1900 = YearKind.Common ∧
    YearKind.fromInt 2100 = YearKind.Common ∧
    YearKind.fromInt 1600 = YearKind.Leap ∧
    YearKind.fromInt 2000 = YearKind.Leap ∧
    YearKind.fromInt 2400 = YearKind.Leap ∧
    YearKind.fromInt 0 = YearKind.Leap := by
  refine ⟨?_, by decide, by decide, by decide, by decide, by decide, by decide⟩
  intro y
  have e4 : y.tmod 4 = 0 ↔ (4 : Int) ∣ y := (@Int.dvd_iff_tmod_eq_zero 4 y).symm
  have e100 : y.tmod 100 = 0 ↔ (100 : Int) ∣ y :=
    (@Int.dvd_iff_tmod_eq_zero 100 y).symm
  have e400 : y.tmod 400 = 0 ↔ (400 : Int) ∣ y :=
    (@Int.dvd_iff_tmod_eq_zero 400 y).symm
  unfold YearKind.fromInt
  split_ifs with h
  · simp only [true_iff]
    exact ⟨e4.mp h.1, h.2.imp (fun hn hc => hn (e100.mpr hc)) e400.mp⟩
  · constructor
    · intro hc
      exact absurd hc (by decide)
    · intro hc
      exact absurd ⟨e4.mpr hc.1, hc.2.imp (fun hn hm => hn (e100.mp hm)) e400.mpr⟩ h

/-- C2: for every `DaylightSaving` time zone and local time `d`, with
`t_outside` and `t_during` the two candidate timestamps, `to_timestamp`
errors exactly when `is_in_dst` disagrees on the two candidates, returns
`Ok t_during` when both are in DST, and `Ok t_outside` when neither is. -/
theorem daylightSaving_to_timestamp_cases :
    ∀ (z : DaylightSaving) (d : NaiveDateTime),
      ((∃ e, z.to_timestamp d = .error e) ↔
        z.is_in_dst (z.offset_outside_dst.to_unambiguous_timestamp d) ≠
          z.is_in_dst (z.offset_during_dst.to_unambiguous_timestamp d)) ∧
      (z.is_in_dst (z.offset_outside_dst.to_unambiguous_timestamp d) = true →
        z.is_in_dst (z.offset_during_dst.to_unambiguous_timestamp d) = true →
        z.to_timestamp d = .ok (z.offset_during_dst.to_unambiguous_timestamp d)) ∧
      (z.is_in_dst (z.offset_outside_dst.to_unambiguous_timestamp d) = false →
        z.is_in_dst (z.offset_during_dst.to_unambiguous_timestamp d) = false →
        z.to_timestamp d = .ok (z.offset_outside_dst.to_unambiguous_timestamp d)) := by
  intro z d
  simp only [DaylightSaving.to_timestamp]
  rcases h1 : z.is_in_dst (z.offset_outside_dst.to_unambiguous_timestamp d) <;>
    rcases h2 : z.is_in_dst (z.offset_during_dst.to_unambiguous_timestamp d) <;>
      simp [h1, h2]
  all_goals exact ⟨⟨⟩, trivial⟩

/-- C2 witness: the all-outside case of the theorem at a concrete
one-hour-offset zone whose predicate is constantly false. -/
theorem daylightSaving_to_timestamp_cases_witness :
    DaylightSaving.to_timestamp ⟨⟨3600⟩, ⟨7200⟩, fun _ => false⟩
        ⟨2016, Month.July, 16, 12, 0, 0⟩ =
      .ok (FixedOffsetFromUtc.to_unambiguous_timestamp ⟨3600⟩
        ⟨2016, Month.July, 16, 12, 0, 0⟩) :=
  (daylightSaving_to_timestamp_cases ⟨⟨3600⟩, ⟨7200⟩, fun _ => false⟩
    ⟨2016, Month.July, 16, 12, 0, 0⟩).2.2 rfl rfl

/-- C7: a fixed-offset zone converts a timestamp by evaluating UTC at the
timestamp shifted by its offset (whenever the shifted value is representable
in `i64`, which the claim's `UnixTimestamp(t + s)` presupposes), and converts
a local time to the UTC timestamp minus the offset, never returning an
error. -/
theorem fixedOffset_is_utc_shift :
    (∀ (z : FixedOffsetFromUtc) (t : Int),
        -9223372036854775808 ≤ t + z.seconds_ahead_of_utc →
        t + z.seconds_ahead_of_utc < 9223372036854775808 →
        z.from_timestamp t =
          Utc.from_timestamp (t + z.seconds_ahead_of_utc)) ∧
    (∀ (z : FixedOffsetFromUtc) (d : NaiveDateTime),
        z.to_timestamp d =
          (Utc.to_timestamp d).map (fun u => u - z.seconds_ahead_of_utc) ∧
        ∃ u, z.to_timestamp d = .ok u) := by
  constructor
  · intro z t h1 h2
    simp only [FixedOffsetFromUtc.from_timestamp]
    rw [wrap64_eq_self h1 h2]
  · intro z d
    exact ⟨rfl, ⟨_, rfl⟩⟩

/-- C7 witness: the shift identity at the UTC+02:00 zone and the timestamp
1468769652 from the repository test suite. -/
theorem fixedOffset_is_utc_shift_witness :
    FixedOffsetFromUtc.from_timestamp ⟨7200⟩ 1468769652 =
      Utc.from_timestamp
        (1468769652 + (⟨7200⟩ : FixedOffsetFromUtc).seconds_ahead_of_utc) :=
  fixedOffset_is_utc_shift.1 ⟨7200⟩ 1468769652 (by decide) (by decide)

/-- C10: every `NaiveDateTime` that `Utc::from_timestamp` actually produces
satisfies the field-range invariant that no constructor enforces: the day is
between 1 and the length of the month in the year's kind, the hour is at most
23, and minute and second are at most 59. -/
theorem utc_from_timestamp_field_ranges :
    ∀ (t : Int) (d : NaiveDateTime), Utc.from_timestamp t = some d →
      1 ≤ d.day ∧ d.day ≤ d.month.length (YearKind.fromInt d.year) ∧
      d.hour ≤ 23 ∧ d.minute ≤ 59 ∧ d.second ≤ 59 := by
  intro t d h
  simp only [Utc.from_timestamp, Option.map_eq_some'] at h
  obtain ⟨⟨m, day⟩, hfd, rfl⟩ := h
  have hb := from_day_of_the_year_bounds _ _ _ _ hfd
  have hh1 := positive_rem_nonneg (div_floor 64 t SECONDS_PER_HOUR)
    (by norm_num : (0:Int) < 24)
  have hh2 := positive_rem_lt (div_floor 64 t SECONDS_PER_HOUR)
    (by norm_num : (0:Int) < 24)
  have hm1 := positive_rem_nonneg (div_floor 64 t SECONDS_PER_MINUTE)
    (by norm_num : (0:Int) < 60)
  have hm2 := positive_rem_lt (div_floor 64 t SECONDS_PER_MINUTE)
    (by norm_num : (0:Int) < 60)
  have hs1 := positive_rem_nonneg t (by norm_num : (0:Int) < 60)
  have hs2 := positive_rem_lt t (by norm_num : (0:Int) < 60)
  refine ⟨hb.1, hb.2, ?_, ?_, ?_⟩ <;> dsimp only <;> omega

set_option maxRecDepth 4000 in
/-- C10 witness: the invariant holds for the value produced at timestamp 0
(the Unix epoch, 1970-01-01 00:00:00). -/
theorem utc_from_timestamp_field_ranges_witness :
    1 ≤ (⟨1970, Month.January, 1, 0, 0, 0⟩ : NaiveDateTime).day ∧
    (⟨1970, Month.January, 1, 0, 0, 0⟩ : NaiveDateTime).day ≤
      Month.length (⟨1970, Month.January, 1, 0, 0, 0⟩ : NaiveDateTime).month
        (YearKind.fromInt (⟨1970, Month.January, 1, 0, 0, 0⟩ : NaiveDateTime).year) ∧
    (⟨1970, Month.January, 1, 0, 0, 0⟩ : NaiveDateTime).hour ≤ 23 ∧
    (⟨1970, Month.January, 1, 0, 0, 0⟩ : NaiveDateTime).minute ≤ 59 ∧
    (⟨1970, Month.January, 1, 0, 0, 0⟩ : NaiveDateTime).second ≤ 59 :=
  utc_from_timestamp_field_ranges 0 ⟨1970, Month.January, 1, 0, 0, 0⟩ (by decide)

/-- C4 (amended): for every `NaiveDateTime` whose year lies within
±5,000,000 (inside this range none of the `i32` operations of
`days_since_unix` or `days_since_d0` can overflow) and whose day is between 1
and the length of its month, `days_since_unix` equals
`days_since_d0(year) - days_since_d0(1970) + days_since_january_1st(month,
kind) + (day - 1)`; in particular it maps 1970-01-01 to 0, 1970-01-02 to 1,
1969-12-31 to -1, 1970-02-01 to 31 and 1973-01-01 to 1096. -/
theorem days_since_unix_formula :
    (∀ (y : Int) (m : Month) (day h mi s : Nat),
        -5000000 ≤ y → y ≤ 5000000 → 1 ≤ day →
        day ≤ m.length (YearKind.fromInt y) →
        days_since_unix ⟨y, m, day, h, mi, s⟩ =
          days_since_d0 y - days_since_d0 1970
            + m.days_since_january_1st (YearKind.fromInt y) + ((day : Int) - 1)) ∧
    days_since_unix ⟨1970, Month.January, 1, 0, 0, 0⟩ = 0 ∧
    days_since_unix ⟨1970, Month.January, 2, 0, 0, 0⟩ = 1 ∧
    days_since_unix ⟨1969, Month.December, 31, 0, 0, 0⟩ = -1 ∧
    days_since_unix ⟨1970, Month.February, 1, 0, 0, 0⟩ = 31 ∧
    days_since_unix ⟨1973, Month.January, 1, 0, 0, 0⟩ = 1096 := by
  refine ⟨?_, by decide, by decide, by decide, by decide, by decide⟩
  intro y m day h mi s hy1 hy2 hd1 hd2
  have hL := leap_days_small_bound hy1 hy2
  have hL70 : leap_days_since_y0 1970 = 478 := by decide
  have h70 : days_since_d0 1970 = 719528 := by decide
  have hJ := days_since_january_1st_bounds m (YearKind.fromInt y)
  have hlen := month_length_le m (YearKind.fromInt y)
  rw [h70]
  simp only [days_since_unix, days_since_d0, DAYS_PER_COMMON_YEAR]
  rw [hL70]
  have hdm : (((day + 255) % 256 : Nat) : Int) = (day : Int) - 1 := by omega
  rw [hdm]
  have w1 : wrapI 32 (y - 1970) = y - 1970 :=
    wrap32_eq_self (by omega) (by omega)
  rw [w1]
  have w2 : wrapI 32 ((y - 1970) * 365) = (y - 1970) * 365 :=
    wrap32_eq_self (by omega) (by omega)
  rw [w2]
  have w3 : wrapI 32 ((y - 1970) * 365 + leap_days_since_y0 y)
      = (y - 1970) * 365 + leap_days_since_y0 y :=
    wrap32_eq_self (by omega) (by omega)
  rw [w3]
  have w4 : wrapI 32 ((y - 1970) * 365 + leap_days_since_y0 y - 478)
      = (y - 1970) * 365 + leap_days_since_y0 y - 478 :=
    wrap32_eq_self (by omega) (by omega)
  rw [w4]
  have w5 : wrapI 32 ((y - 1970) * 365 + leap_days_since_y0 y - 478
        + m.days_since_january_1st (YearKind.fromInt y))
      = (y - 1970) * 365 + leap_days_since_y0 y - 478
        + m.days_since_january_1st (YearKind.fromInt y) :=
    wrap32_eq_self (by omega) (by omega)
  rw [w5]
  have w6 : wrapI 32 ((y - 1970) * 365 + leap_days_since_y0 y - 478
        + m.days_since_january_1st (YearKind.fromInt y) + ((day : Int) - 1))
      = (y - 1970) * 365 + leap_days_since_y0 y - 478
        + m.days_since_january_1st (YearKind.fromInt y) + ((day : Int) - 1) :=
    wrap32_eq_self (by omega) (by omega)
  rw [w6]
  have wr1 : wrapI 32 (y * 365) = y * 365 :=
    wrap32_eq_self (by omega) (by omega)
  rw [wr1]
  have wr2 : wrapI 32 (y * 365 + leap_days_since_y0 y)
      = y * 365 + leap_days_since_y0 y :=
    wrap32_eq_self (by omega) (by omega)
  rw [wr2]
  omega

/-- C4 witness: the formula applied at 1972-03-01 (a leap year, checking the
February offset). -/
theorem days_since_unix_formula_witness :
    days_since_unix ⟨1972, Month.March, 1, 0, 0, 0⟩ =
      days_since_d0 1972 - days_since_d0 1970
        + Month.days_since_january_1st Month.March (YearKind.fromInt 1972)
        + ((1 : Int) - 1) :=
  days_since_unix_formula.1 1972 Month.March 1 0 0 0 (by norm_num) (by norm_num)
    (by norm_num) (by decide)

/-- C4 counterexample: at year 5880516 (a valid i32 year), January 1, the
`i32` addition inside `days_since_d0` wraps, so the claimed identity fails:
`days_since_unix` returns 2147094837 while the right-hand side of the claimed
equation evaluates to -2147872459. -/
theorem days_since_unix_formula_counterexample :
    days_since_unix ⟨5880516, Month.January, 1, 0, 0, 0⟩ = 2147094837 ∧
    days_since_d0 5880516 - days_since_d0 1970
        + Month.days_since_january_1st Month.January (YearKind.fromInt 5880516)
        + ((1 : Int) - 1) = -2147872459 ∧
    1 ≤ 1 ∧ 1 ≤ Month.length Month.January (YearKind.fromInt 5880516) := by
  refine ⟨by decide, by decide, by decide, by decide⟩

set_option maxRecDepth 8000 in
/-- C1 (code bug): at `t = -62293449600`, which is 00:00:00 on January 1 of
year -4 (720989 days before the epoch), `Utc::from_timestamp` panics inside
`Month::from_day_of_the_year` (the 400-year-cycle year estimate names year
-5, a common year, and the derived day of the year is the out-of-range 365),
so neither the UTC round trip nor the fixed-offset round trip can return
`t`. -/
theorem round_trip_panics_at_year_minus4 :
    (Utc.from_timestamp (-62293449600)).map Utc.to_unambiguous_timestamp
        = none ∧
    FixedOffsetFromUtc.from_timestamp ⟨0⟩ (-62293449600) = none := by
  refine ⟨by decide, by decide⟩

set_option maxRecDepth 8000 in
/-- C5 (code bug): at `t = -62293449600` the absolute day count is -1461,
which lies in year -4 (`days_since_d0 (-4) = -1461 ≤ -1461 <
days_since_d0 (-3) = -1095`), but the year estimate
`div_floor (days * 400) 146097` names year -5; the derived day-of-the-year
offset 365 is out of range for the common year -5, so the failure branch of
`Month::from_day_of_the_year` is reached and the conversion panics. -/
theorem year_estimate_misses_at_year_minus4 :
    wrapI 32 (div_floor 64 (-62293449600) SECONDS_PER_DAY) + days_since_d0 1970
        = -1461 ∧
    days_since_d0 (-4) = -1461 ∧
    days_since_d0 (-3) = -1095 ∧
    div_floor 32 (wrapI 32 ((-1461) * 400)) DAYS_PER_400YEARS = -5 ∧
    wrapI 32 ((-1461) - days_since_d0 (-5)) = 365 ∧
    YearKind.fromInt (-5) = YearKind.Common ∧
    Month.from_day_of_the_year 365 YearKind.Common = none ∧
    Utc.from_timestamp (-62293449600) = none := by
  refine ⟨by decide, by decide, by decide, by decide, by decide, by decide,
    by decide, by decide⟩

set_option maxRecDepth 8000 in
/-- C9 (code bug): `CentralEurope::is_in_dst` first converts its argument
through `Utc::from_timestamp`, so at `t = -62293449600` (January 1 of year
-4, a time the claim places outside the DST window, hence `false`) it panics
instead of returning a boolean; at the 2016 transition boundaries it matches
the claimed half-open window exactly. -/
theorem central_europe_is_in_dst_panics :
    CentralEurope.is_in_dst (-62293449600) = none ∧
    CentralEurope.is_in_dst 1459040399 = some false ∧
    CentralEurope.is_in_dst 1459040400 = some true ∧
    CentralEurope.is_in_dst 1477789199 = some true ∧
    CentralEurope.is_in_dst 1477789200 = some false := by
  refine ⟨by decide, by decide, by decide, by decide, by decide⟩

end Gregor
